import Mathlib

/-!
Verification of the association engine of `lsst.pipe.tasks.simpleAssociation`
(`SimpleAssociationTask`): a shallow embedding of `run`, `addNewDiaObject`,
`updateCatalogs`, `findMatches` and `createDiaObject`, instrumented with an
event trace, together with theorems settling the specified properties
(conservation, de-duplication, distance bound, exclusivity, mean/cell
consistency, determinism, tie-break policy, configuration handling, frame
conditions and the parallel-list state invariant).

The geometry helpers (`query_disc`, `eq2xyz`-based distances, `toIndex`,
`averageSpherePoint`) live in `associationUtils` / `lsst.geom`, which are not
part of the sources under verification; following the specification they are
treated as a black-box oracle (`GeomOracle`), with one executable
instantiation (`constOracle`) used for concrete evaluations.
-/

set_option maxRecDepth 4000

namespace SimpleAssoc

/-- One row of the input DiaSource table.  `ra`/`decl` are the sky
coordinates in degrees; `extra` stands for the arbitrary additional
measurement columns the engine never touches. -/
structure SourceRow where
  ccdVisitId : Int
  diaSourceId : Int
  ra : Rat
  decl : Rat
  diaObjectId : Int
  extra : List Rat
deriving DecidableEq, Inhabited

/-- A DiaObject row, with exactly the fields written by
`SimpleAssociationTask.createDiaObject`. -/
structure DiaObject where
  diaObjectId : Int
  ra : Rat
  decl : Rat
  nDiaSources : Nat
  pmParallaxNdata : Nat
  nearbyObj1 : Nat
  nearbyObj2 : Nat
  nearbyObj3 : Nat
  flags : Nat
  uPSFluxNdata : Nat
  gPSFluxNdata : Nat
  rPSFluxNdata : Nat
  iPSFluxNdata : Nat
  zPSFluxNdata : Nat
  yPSFluxNdata : Nat
deriving DecidableEq, Inhabited

/-- The two scalars of `SimpleAssociationConfig`: matching tolerance in
arcseconds and the healpix nside resolution. -/
structure SimpleAssociationConfig where
  tolerance : Rat
  nside : Int
deriving DecidableEq, Inhabited

/-- Modelled from the spec: the black-box geometry utilities consumed by the
engine (`toIndex`, `query_disc` and the `eq2xyz`-based distance from
`associationUtils`, which is not among the sources under verification, plus
`lsst.geom.averageSpherePoint` and `numpy.deg2rad`).  The spec describes them
as pure, side-effect-free functions: a coordinate-to-cell mapping, a
disc-covering cell enumeration, a coordinate-based distance used for exact
separation computation, and a spherical average. -/
structure GeomOracle where
  toIndex : Int → Rat → Rat → Int
  queryDisc : Int → Rat → Rat → Rat → List Int
  dist : Rat → Rat → Rat → Rat → Rat
  average : List (Rat × Rat) → Rat × Rat
  deg2rad : Rat → Rat

/-- Trace of what `run` did to each source: either the source founded a new
object (`create`, recording the new object's list index) or it was attached
to an existing object (`attach`, recording the object's list index, the
source coordinates, the object's mean coordinate at the time of attachment
and the computed distance). -/
inductive AssocEvent where
  | create (objIdx : Nat) (ccdVisit diaSourceId : Int)
  | attach (objIdx : Nat) (ccdVisit diaSourceId : Int)
      (srcRa srcDecl objRa objDecl d : Rat)
deriving DecidableEq, Inhabited

/-- Index of the object that received the source. -/
def AssocEvent.objIdx : AssocEvent → Nat
  | .create i _ _ => i
  | .attach i _ _ _ _ _ _ _ => i

/-- The ccdVisit the event's source belongs to. -/
def AssocEvent.ccdVisit : AssocEvent → Int
  | .create _ v _ => v
  | .attach _ v _ _ _ _ _ _ => v

/-- The diaSourceId of the event's source. -/
def AssocEvent.srcId : AssocEvent → Int
  | .create _ _ s => s
  | .attach _ _ s _ _ _ _ _ => s

/-- The composite (ccdVisitId, diaSourceId) key of the event's source. -/
def AssocEvent.key (e : AssocEvent) : Int × Int := (e.ccdVisit, e.srcId)

/-- Whether the event is an attachment (as opposed to an object creation). -/
def AssocEvent.isAttach : AssocEvent → Bool
  | .create _ _ _ => false
  | .attach _ _ _ _ _ _ _ _ => true

/-- The mutable engine state of one `run` invocation: the three parallel
lists (`diaObjectCat`, `diaObjectCoords`, `healPixIndices`), the per-source
diaObjectId assignments written back into the source table, the IdFactory
counter, and the instrumentation trace. -/
structure AssocState where
  diaObjectCat : List DiaObject
  diaObjectCoords : List (List (Rat × Rat))
  healPixIndices : List Int
  assignments : List ((Int × Int) × Int)
  idCounter : Nat
  events : List AssocEvent
deriving DecidableEq, Inhabited

/-- `SimpleAssociationTask.createDiaObject`: a fresh DiaObject record with
location and id information and zero-initialized statistics columns. -/
def createDiaObject (objId : Int) (ra decl : Rat) : DiaObject :=
  { diaObjectId := objId
    ra := ra
    decl := decl
    nDiaSources := 1
    pmParallaxNdata := 0
    nearbyObj1 := 0
    nearbyObj2 := 0
    nearbyObj3 := 0
    flags := 0
    uPSFluxNdata := 0
    gPSFluxNdata := 0
    rPSFluxNdata := 0
    iPSFluxNdata := 0
    zPSFluxNdata := 0
    yPSFluxNdata := 0 }

/-- Modelled from the spec: `lsst.afw.table.IdFactory.makeSource(tractPatchId,
64 - skymapBits)` followed by `idCat.addNew().get("id")` — a caller-seeded
sequential id generator keyed by the (tractPatchId, skymapBits) pair, with the
tractPatchId in the upper bits and a counter starting at 1 in the lower
`64 - skymapBits` bits. -/
def nextDiaObjectId (tractPatchId : Int) (skymapBits : Nat) (counter : Nat) : Int :=
  tractPatchId * 2 ^ (64 - skymapBits) + (counter + 1)

/-- `SimpleAssociationTask.addNewDiaObject`: append the healpix index of the
source position, append a singleton coordinate history, draw a fresh id,
append the new DiaObject, and record the source's diaObjectId assignment. -/
def addNewDiaObject (G : GeomOracle) (cfg : SimpleAssociationConfig)
    (tractPatchId : Int) (skymapBits : Nat)
    (diaSrc : SourceRow) (ccdVisit : Int) (st : AssocState) : AssocState :=
  let hpIndex := G.toIndex cfg.nside diaSrc.ra diaSrc.decl
  let sphPoint := (diaSrc.ra, diaSrc.decl)
  let diaObjId := nextDiaObjectId tractPatchId skymapBits st.idCounter
  { diaObjectCat := st.diaObjectCat ++ [createDiaObject diaObjId diaSrc.ra diaSrc.decl]
    diaObjectCoords := st.diaObjectCoords ++ [[sphPoint]]
    healPixIndices := st.healPixIndices ++ [hpIndex]
    assignments := st.assignments ++ [((ccdVisit, diaSrc.diaSourceId), diaObjId)]
    idCounter := st.idCounter + 1
    events := st.events ++ [.create st.diaObjectCat.length ccdVisit diaSrc.diaSourceId] }

/-- The coordinate history of the matched DiaObject after appending the new
source position (`diaObjCoords[matchIndex].append(sphPoint)`). -/
def updatedCoords (st : AssocState) (matchIndex : Nat) (diaSrc : SourceRow) :
    List (Rat × Rat) :=
  st.diaObjectCoords.getD matchIndex [] ++ [(diaSrc.ra, diaSrc.decl)]

/-- The matched DiaObject after `updateCatalogs`: mean coordinate recomputed
as the spherical average of the full coordinate history, `nDiaSources`
incremented, all other fields untouched. -/
def updatedObj (G : GeomOracle) (st : AssocState) (matchIndex : Nat)
    (diaSrc : SourceRow) : DiaObject :=
  { st.diaObjectCat.getD matchIndex default with
    ra := (G.average (updatedCoords st matchIndex diaSrc)).1
    decl := (G.average (updatedCoords st matchIndex diaSrc)).2
    nDiaSources := (st.diaObjectCat.getD matchIndex default).nDiaSources + 1 }

/-- `SimpleAssociationTask.updateCatalogs`: append the source coordinate to
the matched object's coordinate history, recompute the mean coordinate as the
spherical average of the full history, bump `nDiaSources`, recompute the
object's healpix index from the new mean, and record the source's
diaObjectId assignment.  `d` is the distance computed by `findMatches` for
this match (instrumentation only; the real method does not take it). -/
def updateCatalogs (G : GeomOracle) (cfg : SimpleAssociationConfig)
    (matchIndex : Nat) (diaSrc : SourceRow) (ccdVisit : Int) (d : Rat)
    (st : AssocState) : AssocState :=
  let oldObj := st.diaObjectCat.getD matchIndex default
  let newObj := updatedObj G st matchIndex diaSrc
  { diaObjectCat := st.diaObjectCat.set matchIndex newObj
    diaObjectCoords := st.diaObjectCoords.set matchIndex
      (updatedCoords st matchIndex diaSrc)
    healPixIndices := st.healPixIndices.set matchIndex
      (G.toIndex cfg.nside newObj.ra newObj.decl)
    assignments := st.assignments ++ [((ccdVisit, diaSrc.diaSourceId), oldObj.diaObjectId)]
    idCounter := st.idCounter
    events := st.events ++ [.attach matchIndex ccdVisit diaSrc.diaSourceId
      diaSrc.ra diaSrc.decl oldObj.ra oldObj.decl d] }

/-- `numpy.min` over a list of distances (the lists it is applied to are
nonempty; the `[]` case is arbitrary). -/
def listMin : List Rat → Rat
  | [] => 0
  | [x] => x
  | x :: y :: xs => min x (listMin (y :: xs))

/-- `numpy.argmin`: index of the first occurrence of the minimum. -/
def listArgmin : List Rat → Nat
  | [] => 0
  | [_] => 0
  | x :: y :: xs => if x ≤ listMin (y :: xs) then 0 else listArgmin (y :: xs) + 1

/-- `SimpleAssociationTask.findMatches`: enumerate the healpix cells covering
a disc of radius `deg2rad(tol/3600)` around the source, keep the indices of
the live objects whose current cell is among them, and return their exact
distances together with those indices (`none` when there is no candidate). -/
def findMatches (G : GeomOracle) (nside : Int) (srcRa srcDecl tol : Rat)
    (hpIndices : List Int) (diaObjs : List DiaObject) :
    Option (List Rat × List Nat) :=
  let matchCells := G.queryDisc nside srcRa srcDecl (G.deg2rad (tol / 3600))
  let matchIndices := (List.range hpIndices.length).filter
    (fun i => decide ((hpIndices.getD i 0) ∈ matchCells))
  if matchIndices.length < 1 then
    none
  else
    some
      (matchIndices.map (fun m =>
          G.dist srcRa srcDecl (diaObjs.getD m default).ra (diaObjs.getD m default).decl),
        matchIndices)

/-- One iteration of the inner loop of `SimpleAssociationTask.run` for a
ccdVisit that is not the founding one: find matchIdxs, and either attach the
source to the nearest unclaimed object within tolerance or create a new
DiaObject.  The accumulator carries the engine state and the
`usedMatchIndicies` list of objects already claimed this ccdVisit. -/
def processSource (G : GeomOracle) (cfg : SimpleAssociationConfig)
    (tractPatchId : Int) (skymapBits : Nat) (ccdVisit : Int)
    (acc : AssocState × List Nat) (diaSrc : SourceRow) : AssocState × List Nat :=
  let st := acc.1
  let used := acc.2
  match findMatches G cfg.nside diaSrc.ra diaSrc.decl (2 * cfg.tolerance)
      st.healPixIndices st.diaObjectCat with
  | none => (addNewDiaObject G cfg tractPatchId skymapBits diaSrc ccdVisit st, used)
  | some (dists, matchIdxs) =>
    if listMin dists < G.deg2rad (cfg.tolerance / 3600) then
      let matchDistArg := listArgmin dists
      let matchIndex := matchIdxs.getD matchDistArg 0
      if matchIndex ∈ used then
        (addNewDiaObject G cfg tractPatchId skymapBits diaSrc ccdVisit st, used)
      else
        (updateCatalogs G cfg matchIndex diaSrc ccdVisit (dists.getD matchDistArg 0) st,
          used ++ [matchIndex])
    else
      (addNewDiaObject G cfg tractPatchId skymapBits diaSrc ccdVisit st, used)

/-- One iteration of the outer loop of `SimpleAssociationTask.run` over a
ccdVisit: if no DiaObject exists yet, every source of the visit founds a new
DiaObject; otherwise the sources are matched one by one, with a fresh
`usedMatchIndicies` list for the visit. -/
def processVisit (G : GeomOracle) (cfg : SimpleAssociationConfig)
    (tractPatchId : Int) (skymapBits : Nat) (ccdVisit : Int)
    (rows : List SourceRow) (st : AssocState) : AssocState :=
  if st.diaObjectCat.isEmpty then
    rows.foldl (fun s r => addNewDiaObject G cfg tractPatchId skymapBits r ccdVisit s) st
  else
    (rows.foldl (processSource G cfg tractPatchId skymapBits ccdVisit) (st, [])).1

/-- Insertion into a ≤-sorted list of ccdVisit ids. -/
def insertSorted (x : Int) : List Int → List Int
  | [] => [x]
  | y :: ys => if x ≤ y then x :: y :: ys else y :: insertSorted x ys

/-- Ascending insertion sort on ccdVisit ids. -/
def sortInt (l : List Int) : List Int := l.foldr insertSorted []

/-- `diaSources.index.levels[0]` after `set_index(["ccdVisitId",
"diaSourceId"])`: the sorted list of distinct ccdVisitIds present in the
input. -/
def visitList (rows : List SourceRow) : List Int :=
  sortInt ((rows.map (fun r => r.ccdVisitId)).dedup)

/-- The empty engine state at entry of `run`. -/
def initState : AssocState :=
  { diaObjectCat := []
    diaObjectCoords := []
    healPixIndices := []
    assignments := []
    idCounter := 0
    events := [] }

/-- `SimpleAssociationTask.run`: process the ccdVisits in ascending order,
and within each ccdVisit the sources in their input row order. -/
def runAssoc (G : GeomOracle) (cfg : SimpleAssociationConfig)
    (tractPatchId : Int) (skymapBits : Nat) (diaSources : List SourceRow) : AssocState :=
  (visitList diaSources).foldl
    (fun st v => processVisit G cfg tractPatchId skymapBits v
      (diaSources.filter (fun r => r.ccdVisitId == v)) st)
    initState

/-- The keyed write `diaSources.loc[(ccdVisit, diaSourceId), "diaObjectId"] = id`
applied to one row: the row's `diaObjectId` column takes the (last) id
recorded for its composite key; every other column is untouched. -/
def applyAssignment (st : AssocState) (r : SourceRow) : SourceRow :=
  match (st.assignments.filter
      (fun a => a.1 == (r.ccdVisitId, r.diaSourceId))).getLast? with
  | some a => { r with diaObjectId := a.2 }
  | none => r

/-- The result struct of `run`: the source table with the `diaObjectId`
column populated from the recorded assignments (everything else untouched),
and the DiaObject table. -/
def assocOutput (G : GeomOracle) (cfg : SimpleAssociationConfig)
    (tractPatchId : Int) (skymapBits : Nat) (diaSources : List SourceRow) :
    List SourceRow × List DiaObject :=
  let st := runAssoc G cfg tractPatchId skymapBits diaSources
  (diaSources.map (applyAssignment st), st.diaObjectCat)

/-- Total number of sources accounted for by the object catalog. -/
def sumN (cat : List DiaObject) : Nat := (cat.map (fun o => o.nDiaSources)).sum

/-- The composite (ccdVisitId, diaSourceId) key of a source row. -/
def keyOf (r : SourceRow) : Int × Int := (r.ccdVisitId, r.diaSourceId)

/-- Number of attachment events of ccdVisit `v` received by object index `i`. -/
def attachCount (events : List AssocEvent) (v : Int) (i : Nat) : Nat :=
  (events.filter (fun e => e.isAttach && e.objIdx == i && e.ccdVisit == v)).length

/-- Number of sources of ccdVisit `v` received (founding or attached) by
object index `i`. -/
def receivedCount (events : List AssocEvent) (v : Int) (i : Nat) : Nat :=
  (events.filter (fun e => e.objIdx == i && e.ccdVisit == v)).length

/-- The diaObjectIds assigned to the source with key `k`. -/
def assignedIds (st : AssocState) (k : Int × Int) : List Int :=
  (st.assignments.filter (fun a => a.1 == k)).map Prod.snd

/-- Rational approximation of π used by the executable oracle. -/
def ratPi : Rat := 3141592653589793 / 1000000000000000

/-- Executable stand-in for `numpy.deg2rad`. -/
def deg2radQ (x : Rat) : Rat := x * ratPi / 180

/-- Componentwise arithmetic mean, an executable stand-in for
`lsst.geom.averageSpherePoint` (exact on a singleton history). -/
def avgQ (l : List (Rat × Rat)) : Rat × Rat :=
  ((l.map Prod.fst).sum / (l.length : Rat), (l.map Prod.snd).sum / (l.length : Rat))

/-- Modelled from the spec: a concrete executable instantiation of the
black-box geometry oracle, used to evaluate the engine on explicit inputs —
a single healpix cell (coarse filter that never prunes, a legal covering
superset), a flat-sky L1 distance in radians, the componentwise mean, and the
degree-to-radian conversion. -/
def constOracle : GeomOracle :=
  { toIndex := fun _ _ _ => 0
    queryDisc := fun _ _ _ _ => [0]
    dist := fun ra1 decl1 ra2 decl2 => deg2radQ (|ra1 - ra2| + |decl1 - decl2|)
    average := avgQ
    deg2rad := deg2radQ }

/-- The default configuration: tolerance 0.5 arcsec, nside 2^18. -/
def cfg0 : SimpleAssociationConfig := { tolerance := 1 / 2, nside := 262144 }

/-- Concrete test row: ccdVisit 1, far from the others. -/
def rowA : SourceRow :=
  { ccdVisitId := 1, diaSourceId := 1, ra := 50, decl := 0, diaObjectId := 0, extra := [7] }

/-- Concrete test row: ccdVisit 2, at the origin. -/
def rowB : SourceRow :=
  { ccdVisitId := 2, diaSourceId := 2, ra := 0, decl := 0, diaObjectId := 0, extra := [8] }

/-- Concrete test row: ccdVisit 2, within tolerance of `rowB`. -/
def rowC : SourceRow :=
  { ccdVisitId := 2, diaSourceId := 3, ra := 0, decl := 1 / 100000000, diaObjectId := 0,
    extra := [9] }

/-- Concrete mid-run state with two live DiaObjects, both within tolerance of
`srcW`: the nearest (index 0) at the same position, the second-nearest
(index 1) one millionth of a degree away. -/
def stW : AssocState :=
  { diaObjectCat := [createDiaObject 101 0 0, createDiaObject 102 0 (1 / 1000000)]
    diaObjectCoords := [[(0, 0)], [(0, 1 / 1000000)]]
    healPixIndices := [0, 0]
    assignments := []
    idCounter := 2
    events := [] }

/-- Concrete source at the position of `stW`'s object 0. -/
def srcW : SourceRow :=
  { ccdVisitId := 2, diaSourceId := 9, ra := 0, decl := 0, diaObjectId := 0, extra := [] }

/-- A `usedMatchIndicies` list that already claims `stW`'s object 0. -/
def usedW : List Nat := [0]

/-- The distances `findMatches` computes for `srcW` against `stW`. -/
def distsW : List Rat := [deg2radQ 0, deg2radQ (1 / 1000000)]

/-! ### List helper lemmas -/

theorem getD_append_length (l : List α) (x d : α) : (l ++ [x]).getD l.length d = x := by
  rw [List.getD_append_right l [x] d l.length le_rfl]
  simp

theorem getD_set_self (l : List α) (i : Nat) (x d : α) (h : i < l.length) :
    (l.set i x).getD i d = x := by
  rw [List.getD_eq_getElem?_getD, List.getElem?_set_self h]
  rfl

theorem getD_set_ne (l : List α) (i j : Nat) (x d : α) (h : i ≠ j) :
    (l.set i x).getD j d = l.getD j d := by
  rw [List.getD_eq_getElem?_getD, List.getElem?_set_ne h, ← List.getD_eq_getElem?_getD]

theorem getD_mem (l : List α) (i : Nat) (d : α) (h : i < l.length) : l.getD i d ∈ l := by
  rw [List.getD_eq_getElem l d h]
  exact List.getElem_mem h

theorem set_getD_self (l : List α) (i : Nat) (d : α) (h : i < l.length) :
    l.set i (l.getD i d) = l := by
  induction l generalizing i with
  | nil => simp at h
  | cons a t ih =>
    cases i with
    | zero => simp
    | succ n =>
      have hn : n < t.length := by simpa using h
      show a :: t.set n ((a :: t).getD (n + 1) d) = a :: t
      rw [List.getD_cons_succ, ih n hn]

theorem map_diaObjectId_set (cat : List DiaObject) (i : Nat) (o : DiaObject)
    (h : i < cat.length) (hid : o.diaObjectId = (cat.getD i default).diaObjectId) :
    (cat.set i o).map DiaObject.diaObjectId = cat.map DiaObject.diaObjectId := by
  rw [List.map_set]
  have hlen : i < (cat.map DiaObject.diaObjectId).length := by simpa using h
  have hval : o.diaObjectId = (cat.map DiaObject.diaObjectId).getD i default := by
    rw [hid, List.getD_eq_getElem _ _ h, List.getD_eq_getElem _ _ hlen]
    simp
  rw [hval]
  exact set_getD_self _ _ _ hlen

theorem sumN_append (cat : List DiaObject) (o : DiaObject) :
    sumN (cat ++ [o]) = sumN cat + o.nDiaSources := by
  simp [sumN]

theorem sumN_set (l : List DiaObject) (i : Nat) (o : DiaObject) (h : i < l.length) :
    sumN (l.set i o) + (l.getD i default).nDiaSources = sumN l + o.nDiaSources := by
  induction l generalizing i with
  | nil => simp at h
  | cons a t ih =>
    cases i with
    | zero => simp [sumN]; omega
    | succ n =>
      have hn : n < t.length := by simpa using h
      have := ih n hn
      simp only [List.set, sumN, List.map_cons, List.sum_cons, List.getD_cons_succ] at *
      omega

/-! ### Lemmas about `listMin` and `listArgmin` -/

theorem listMin_mem (l : List Rat) (h : l ≠ []) : listMin l ∈ l := by
  induction l with
  | nil => exact absurd rfl h
  | cons x t ih =>
    cases t with
    | nil => simp [listMin]
    | cons y s =>
      rcases min_cases x (listMin (y :: s)) with ⟨heq, _⟩ | ⟨heq, _⟩
      · simp [listMin, heq]
      · have := ih (by simp)
        simp only [listMin, heq]
        exact List.mem_cons_of_mem x this

theorem listArgmin_lt_length (l : List Rat) (h : l ≠ []) : listArgmin l < l.length := by
  induction l with
  | nil => exact absurd rfl h
  | cons x t ih =>
    cases t with
    | nil => simp [listArgmin]
    | cons y s =>
      simp only [listArgmin]
      split
      · simp
      · have := ih (by simp)
        simpa using Nat.succ_lt_succ this

theorem getD_listArgmin (l : List Rat) (h : l ≠ []) (d : Rat) :
    l.getD (listArgmin l) d = listMin l := by
  induction l with
  | nil => exact absurd rfl h
  | cons x t ih =>
    cases t with
    | nil => simp [listArgmin, listMin]
    | cons y s =>
      simp only [listArgmin, listMin]
      split
      · next hle => simp [min_eq_left hle]
      · next hlt =>
        have hmin : min x (listMin (y :: s)) = listMin (y :: s) :=
          min_eq_right (le_of_lt (lt_of_not_le hlt))
        rw [hmin, List.getD_cons_succ]
        exact ih (by simp)

/-! ### Lemmas about `sortInt` and `visitList` -/

theorem perm_insertSorted (x : Int) (l : List Int) : List.Perm (insertSorted x l) (x :: l) := by
  induction l with
  | nil => rfl
  | cons y t ih =>
    simp only [insertSorted]
    split
    · rfl
    · exact List.Perm.trans (List.Perm.cons y ih) (List.Perm.swap x y t)

theorem perm_sortInt (l : List Int) : List.Perm (sortInt l) l := by
  induction l with
  | nil => rfl
  | cons x t ih =>
    exact List.Perm.trans (perm_insertSorted x (sortInt t)) (List.Perm.cons x ih)

theorem nodup_visitList (rows : List SourceRow) : (visitList rows).Nodup :=
  ((perm_sortInt _).nodup_iff).mpr (List.nodup_dedup _)

theorem mem_visitList (rows : List SourceRow) (r : SourceRow) (h : r ∈ rows) :
    r.ccdVisitId ∈ visitList rows :=
  ((perm_sortInt _).mem_iff).mpr (List.mem_dedup.mpr (List.mem_map_of_mem _ h))

/-! ### Characterization of `findMatches` -/

theorem findMatches_some (G : GeomOracle) (nside : Int) (srcRa srcDecl tol : Rat)
    (hpIndices : List Int) (diaObjs : List DiaObject) (dists : List Rat)
    (matchIdxs : List Nat)
    (h : findMatches G nside srcRa srcDecl tol hpIndices diaObjs = some (dists, matchIdxs)) :
    dists = matchIdxs.map (fun m =>
        G.dist srcRa srcDecl (diaObjs.getD m default).ra (diaObjs.getD m default).decl)
    ∧ matchIdxs ≠ [] ∧ ∀ m ∈ matchIdxs, m < hpIndices.length := by
  rw [findMatches] at h
  split at h
  · exact absurd h (by simp)
  · next hlen =>
    obtain ⟨h1, h2⟩ := Prod.mk.injEq .. ▸ Option.some.injEq .. ▸ h
    subst h2
    refine ⟨h1.symm, ?_, ?_⟩
    · intro hnil
      rw [hnil] at hlen
      exact hlen (by simp)
    · intro m hm
      have := List.mem_filter.mp hm
      exact List.mem_range.mp this.1

/-! ### The unconditional state invariant -/

/-- The distance bound satisfied by every event: an attachment records the
oracle distance between the source and the object's mean at the time of
attachment, and that distance is strictly below the converted tolerance. -/
def AttachOK (G : GeomOracle) (cfg : SimpleAssociationConfig) : AssocEvent → Prop
  | .create _ _ _ => True
  | .attach _ _ _ srcRa srcDecl objRa objDecl d =>
      d = G.dist srcRa srcDecl objRa objDecl ∧ d < G.deg2rad (cfg.tolerance / 3600)

/-- The parallel-list invariant of claim C10: the three engine-owned lists
stay the same length and each object's member count equals the length of its
stored coordinate history. -/
def ParallelStateInv (st : AssocState) : Prop :=
  st.diaObjectCoords.length = st.diaObjectCat.length
  ∧ st.healPixIndices.length = st.diaObjectCat.length
  ∧ ∀ i, i < st.diaObjectCat.length →
      (st.diaObjectCat.getD i default).nDiaSources
        = (st.diaObjectCoords.getD i []).length

/-- Master unconditional invariant of the engine state. -/
structure Inv (G : GeomOracle) (cfg : SimpleAssociationConfig) (st : AssocState) : Prop where
  par : ParallelStateInv st
  sum_events : sumN st.diaObjectCat = st.events.length
  assign_keys : st.assignments.map Prod.fst = st.events.map AssocEvent.key
  assign_ids : ∀ a ∈ st.assignments, a.2 ∈ st.diaObjectCat.map DiaObject.diaObjectId
  attach_ok : ∀ e ∈ st.events, AttachOK G cfg e

theorem inv_initState (G : GeomOracle) (cfg : SimpleAssociationConfig) :
    Inv G cfg initState := by
  constructor <;> simp [initState, ParallelStateInv, sumN]

theorem par_addNewDiaObject (G : GeomOracle) (cfg : SimpleAssociationConfig)
    (tractPatchId : Int) (skymapBits : Nat) (diaSrc : SourceRow) (ccdVisit : Int)
    (st : AssocState) (h : ParallelStateInv st) :
    ParallelStateInv (addNewDiaObject G cfg tractPatchId skymapBits diaSrc ccdVisit st) := by
  obtain ⟨h1, h2, h3⟩ := h
  refine ⟨by simp [addNewDiaObject, h1], by simp [addNewDiaObject, h2], ?_⟩
  intro i hi
  simp only [addNewDiaObject, List.length_append, List.length_cons, List.length_nil] at hi
  by_cases hlt : i < st.diaObjectCat.length
  · simp only [addNewDiaObject]
    rw [List.getD_append _ _ _ _ hlt, List.getD_append _ _ _ _ (h1 ▸ hlt)]
    exact h3 i hlt
  · have hieq : i = st.diaObjectCat.length := by omega
    simp only [addNewDiaObject]
    rw [hieq, getD_append_length, ← h1, getD_append_length]
    simp [createDiaObject]

theorem inv_addNewDiaObject (G : GeomOracle) (cfg : SimpleAssociationConfig)
    (tractPatchId : Int) (skymapBits : Nat) (diaSrc : SourceRow) (ccdVisit : Int)
    (st : AssocState) (h : Inv G cfg st) :
    Inv G cfg (addNewDiaObject G cfg tractPatchId skymapBits diaSrc ccdVisit st) := by
  refine ⟨par_addNewDiaObject G cfg tractPatchId skymapBits diaSrc ccdVisit st h.par,
    ?_, ?_, ?_, ?_⟩
  · simp [addNewDiaObject, sumN_append, h.sum_events, createDiaObject]
  · simp [addNewDiaObject, h.assign_keys, AssocEvent.key, AssocEvent.ccdVisit,
      AssocEvent.srcId]
  · intro a ha
    simp only [addNewDiaObject, List.mem_append, List.mem_singleton] at ha
    rcases ha with ha | ha
    · have := h.assign_ids a ha
      simp only [addNewDiaObject, List.map_append, List.mem_append]
      exact Or.inl this
    · subst ha
      simp [addNewDiaObject, createDiaObject]
  · intro e he
    simp only [addNewDiaObject, List.mem_append, List.mem_singleton] at he
    rcases he with he | he
    · exact h.attach_ok e he
    · subst he
      trivial

theorem updatedObj_nDiaSources (G : GeomOracle) (st : AssocState) (matchIndex : Nat)
    (diaSrc : SourceRow) :
    (updatedObj G st matchIndex diaSrc).nDiaSources
      = (st.diaObjectCat.getD matchIndex default).nDiaSources + 1 := rfl

theorem updatedObj_diaObjectId (G : GeomOracle) (st : AssocState) (matchIndex : Nat)
    (diaSrc : SourceRow) :
    (updatedObj G st matchIndex diaSrc).diaObjectId
      = (st.diaObjectCat.getD matchIndex default).diaObjectId := rfl

theorem updatedCoords_length (st : AssocState) (matchIndex : Nat) (diaSrc : SourceRow) :
    (updatedCoords st matchIndex diaSrc).length
      = (st.diaObjectCoords.getD matchIndex []).length + 1 := by
  simp [updatedCoords]

theorem par_updateCatalogs (G : GeomOracle) (cfg : SimpleAssociationConfig)
    (matchIndex : Nat) (diaSrc : SourceRow) (ccdVisit : Int) (d : Rat)
    (st : AssocState) (h : ParallelStateInv st) (hm : matchIndex < st.diaObjectCat.length) :
    ParallelStateInv (updateCatalogs G cfg matchIndex diaSrc ccdVisit d st) := by
  obtain ⟨h1, h2, h3⟩ := h
  refine ⟨by simp [updateCatalogs, h1], by simp [updateCatalogs, h2], ?_⟩
  intro i hi
  simp only [updateCatalogs, List.length_set] at hi
  by_cases hieq : matchIndex = i
  · subst hieq
    show ((st.diaObjectCat.set matchIndex (updatedObj G st matchIndex diaSrc)).getD
        matchIndex default).nDiaSources
      = ((st.diaObjectCoords.set matchIndex (updatedCoords st matchIndex diaSrc)).getD
        matchIndex []).length
    rw [getD_set_self _ _ _ _ hm, getD_set_self _ _ _ _ (h1 ▸ hm)]
    rw [updatedObj_nDiaSources, updatedCoords_length, h3 matchIndex hm]
  · show ((st.diaObjectCat.set matchIndex (updatedObj G st matchIndex diaSrc)).getD
        i default).nDiaSources
      = ((st.diaObjectCoords.set matchIndex (updatedCoords st matchIndex diaSrc)).getD
        i []).length
    rw [getD_set_ne _ _ _ _ _ hieq, getD_set_ne _ _ _ _ _ hieq]
    exact h3 i hi

theorem inv_updateCatalogs (G : GeomOracle) (cfg : SimpleAssociationConfig)
    (matchIndex : Nat) (diaSrc : SourceRow) (ccdVisit : Int) (d : Rat)
    (st : AssocState) (h : Inv G cfg st) (hm : matchIndex < st.diaObjectCat.length)
    (hd : d = G.dist diaSrc.ra diaSrc.decl (st.diaObjectCat.getD matchIndex default).ra
      (st.diaObjectCat.getD matchIndex default).decl)
    (hlt : d < G.deg2rad (cfg.tolerance / 3600)) :
    Inv G cfg (updateCatalogs G cfg matchIndex diaSrc ccdVisit d st) := by
  refine ⟨par_updateCatalogs G cfg matchIndex diaSrc ccdVisit d st h.par hm, ?_, ?_, ?_, ?_⟩
  · have hset := sumN_set st.diaObjectCat matchIndex (updatedObj G st matchIndex diaSrc) hm
    have hobj := updatedObj_nDiaSources G st matchIndex diaSrc
    have hs := h.sum_events
    show sumN (st.diaObjectCat.set matchIndex (updatedObj G st matchIndex diaSrc))
      = (st.events ++ [AssocEvent.attach matchIndex ccdVisit diaSrc.diaSourceId
          diaSrc.ra diaSrc.decl (st.diaObjectCat.getD matchIndex default).ra
          (st.diaObjectCat.getD matchIndex default).decl d]).length
    rw [List.length_append]
    simp only [List.length_cons, List.length_nil]
    omega
  · simp [updateCatalogs, h.assign_keys, AssocEvent.key, AssocEvent.ccdVisit,
      AssocEvent.srcId]
  · intro a ha
    simp only [updateCatalogs, List.mem_append, List.mem_singleton] at ha
    have hmap : (st.diaObjectCat.set matchIndex
          (updatedObj G st matchIndex diaSrc)).map DiaObject.diaObjectId
        = st.diaObjectCat.map DiaObject.diaObjectId :=
      map_diaObjectId_set st.diaObjectCat matchIndex _ hm
        (updatedObj_diaObjectId G st matchIndex diaSrc)
    show a.2 ∈ (st.diaObjectCat.set matchIndex
      (updatedObj G st matchIndex diaSrc)).map DiaObject.diaObjectId
    rw [hmap]
    rcases ha with ha | ha
    · exact h.assign_ids a ha
    · subst ha
      exact List.mem_map_of_mem DiaObject.diaObjectId
        (getD_mem st.diaObjectCat matchIndex default hm)
  · intro e he
    simp only [updateCatalogs, List.mem_append, List.mem_singleton] at he
    rcases he with he | he
    · exact h.attach_ok e he
    · subst he
      exact ⟨hd, hlt⟩

theorem getD_map (f : α → β) (l : List α) (i : Nat) (d : β) (d' : α) (h : i < l.length) :
    (l.map f).getD i d = f (l.getD i d') := by
  rw [List.getD_eq_getElem _ _ (by simpa using h), List.getD_eq_getElem _ _ h]
  simp

theorem inv_processSource (G : GeomOracle) (cfg : SimpleAssociationConfig)
    (tractPatchId : Int) (skymapBits : Nat) (ccdVisit : Int)
    (acc : AssocState × List Nat) (diaSrc : SourceRow) (h : Inv G cfg acc.1) :
    Inv G cfg (processSource G cfg tractPatchId skymapBits ccdVisit acc diaSrc).1 := by
  cases hfm : findMatches G cfg.nside diaSrc.ra diaSrc.decl (2 * cfg.tolerance)
      acc.1.healPixIndices acc.1.diaObjectCat with
  | none =>
    simpa only [processSource, hfm] using
      inv_addNewDiaObject G cfg tractPatchId skymapBits diaSrc ccdVisit acc.1 h
  | some p =>
    obtain ⟨dists, matchIdxs⟩ := p
    obtain ⟨hdists, hnil, hbound⟩ := findMatches_some G cfg.nside diaSrc.ra diaSrc.decl
      (2 * cfg.tolerance) acc.1.healPixIndices acc.1.diaObjectCat dists matchIdxs hfm
    simp only [processSource, hfm]
    split
    · next hlt =>
      split
      · next hused =>
        exact inv_addNewDiaObject G cfg tractPatchId skymapBits diaSrc ccdVisit acc.1 h
      · next hused =>
        have hdnil : dists ≠ [] := by
          rw [hdists]
          simpa using hnil
        have hdlen : dists.length = matchIdxs.length := by
          rw [hdists, List.length_map]
        have hargd : listArgmin dists < dists.length := listArgmin_lt_length dists hdnil
        have hargm : listArgmin dists < matchIdxs.length := hdlen ▸ hargd
        have hmmem : matchIdxs.getD (listArgmin dists) 0 ∈ matchIdxs :=
          getD_mem matchIdxs (listArgmin dists) 0 hargm
        have hm : matchIdxs.getD (listArgmin dists) 0 < acc.1.diaObjectCat.length :=
          h.par.2.1 ▸ hbound _ hmmem
        have hd : dists.getD (listArgmin dists) 0
            = G.dist diaSrc.ra diaSrc.decl
              ((acc.1.diaObjectCat.getD (matchIdxs.getD (listArgmin dists) 0) default).ra)
              ((acc.1.diaObjectCat.getD (matchIdxs.getD (listArgmin dists) 0) default).decl) := by
          have hmap := getD_map (fun m =>
              G.dist diaSrc.ra diaSrc.decl (acc.1.diaObjectCat.getD m default).ra
                (acc.1.diaObjectCat.getD m default).decl)
            matchIdxs (listArgmin dists) 0 0 hargm
          rw [← hdists] at hmap
          exact hmap
        have hdmin : dists.getD (listArgmin dists) 0 = listMin dists :=
          getD_listArgmin dists hdnil 0
        exact inv_updateCatalogs G cfg (matchIdxs.getD (listArgmin dists) 0) diaSrc ccdVisit
          (dists.getD (listArgmin dists) 0) acc.1 h hm hd (hdmin ▸ hlt)
    · next hlt =>
      exact inv_addNewDiaObject G cfg tractPatchId skymapBits diaSrc ccdVisit acc.1 h

theorem inv_foldAdd (G : GeomOracle) (cfg : SimpleAssociationConfig)
    (tractPatchId : Int) (skymapBits : Nat) (ccdVisit : Int)
    (rows : List SourceRow) (st : AssocState) (h : Inv G cfg st) :
    Inv G cfg (rows.foldl
      (fun s r => addNewDiaObject G cfg tractPatchId skymapBits r ccdVisit s) st) := by
  induction rows generalizing st with
  | nil => exact h
  | cons r rest ih =>
    exact ih _ (inv_addNewDiaObject G cfg tractPatchId skymapBits r ccdVisit st h)

theorem inv_foldProc (G : GeomOracle) (cfg : SimpleAssociationConfig)
    (tractPatchId : Int) (skymapBits : Nat) (ccdVisit : Int)
    (rows : List SourceRow) (acc : AssocState × List Nat) (h : Inv G cfg acc.1) :
    Inv G cfg ((rows.foldl (processSource G cfg tractPatchId skymapBits ccdVisit) acc).1) := by
  induction rows generalizing acc with
  | nil => exact h
  | cons r rest ih =>
    exact ih _ (inv_processSource G cfg tractPatchId skymapBits ccdVisit acc r h)

theorem inv_processVisit (G : GeomOracle) (cfg : SimpleAssociationConfig)
    (tractPatchId : Int) (skymapBits : Nat) (ccdVisit : Int)
    (rows : List SourceRow) (st : AssocState) (h : Inv G cfg st) :
    Inv G cfg (processVisit G cfg tractPatchId skymapBits ccdVisit rows st) := by
  rw [processVisit]
  split
  · exact inv_foldAdd G cfg tractPatchId skymapBits ccdVisit rows st h
  · exact inv_foldProc G cfg tractPatchId skymapBits ccdVisit rows (st, []) h

theorem inv_foldVisits (G : GeomOracle) (cfg : SimpleAssociationConfig)
    (tractPatchId : Int) (skymapBits : Nat) (diaSources : List SourceRow)
    (visits : List Int) (st : AssocState) (h : Inv G cfg st) :
    Inv G cfg (visits.foldl
      (fun s v => processVisit G cfg tractPatchId skymapBits v
        (diaSources.filter (fun r => r.ccdVisitId == v)) s) st) := by
  induction visits generalizing st with
  | nil => exact h
  | cons v rest ih =>
    exact ih _ (inv_processVisit G cfg tractPatchId skymapBits v _ st h)

theorem inv_runAssoc (G : GeomOracle) (cfg : SimpleAssociationConfig)
    (tractPatchId : Int) (skymapBits : Nat) (diaSources : List SourceRow) :
    Inv G cfg (runAssoc G cfg tractPatchId skymapBits diaSources) := by
  rw [runAssoc]
  exact inv_foldVisits G cfg tractPatchId skymapBits diaSources (visitList diaSources)
    initState (inv_initState G cfg)

/-! ### Event-trace lemmas -/

theorem events_addNewDiaObject (G : GeomOracle) (cfg : SimpleAssociationConfig)
    (tractPatchId : Int) (skymapBits : Nat) (diaSrc : SourceRow) (ccdVisit : Int)
    (st : AssocState) :
    (addNewDiaObject G cfg tractPatchId skymapBits diaSrc ccdVisit st).events
      = st.events ++ [.create st.diaObjectCat.length ccdVisit diaSrc.diaSourceId] := rfl

theorem events_updateCatalogs (G : GeomOracle) (cfg : SimpleAssociationConfig)
    (matchIndex : Nat) (diaSrc : SourceRow) (ccdVisit : Int) (d : Rat) (st : AssocState) :
    (updateCatalogs G cfg matchIndex diaSrc ccdVisit d st).events
      = st.events ++ [.attach matchIndex ccdVisit diaSrc.diaSourceId diaSrc.ra diaSrc.decl
          (st.diaObjectCat.getD matchIndex default).ra
          (st.diaObjectCat.getD matchIndex default).decl d] := rfl

/-- Each call of the inner loop body either creates a new DiaObject, leaving
the claim list untouched, or attaches the source to an object not yet claimed
this ccdVisit and claims it. -/
theorem processSource_cases (G : GeomOracle) (cfg : SimpleAssociationConfig)
    (tractPatchId : Int) (skymapBits : Nat) (ccdVisit : Int)
    (acc : AssocState × List Nat) (diaSrc : SourceRow) :
    processSource G cfg tractPatchId skymapBits ccdVisit acc diaSrc
      = (addNewDiaObject G cfg tractPatchId skymapBits diaSrc ccdVisit acc.1, acc.2)
    ∨ ∃ m d, m < acc.1.healPixIndices.length ∧ m ∉ acc.2
        ∧ processSource G cfg tractPatchId skymapBits ccdVisit acc diaSrc
          = (updateCatalogs G cfg m diaSrc ccdVisit d acc.1, acc.2 ++ [m]) := by
  cases hfm : findMatches G cfg.nside diaSrc.ra diaSrc.decl (2 * cfg.tolerance)
      acc.1.healPixIndices acc.1.diaObjectCat with
  | none =>
    left
    simp [processSource, hfm]
  | some p =>
    obtain ⟨dists, matchIdxs⟩ := p
    obtain ⟨hdists, hnil, hbound⟩ := findMatches_some G cfg.nside diaSrc.ra diaSrc.decl
      (2 * cfg.tolerance) acc.1.healPixIndices acc.1.diaObjectCat dists matchIdxs hfm
    simp only [processSource, hfm]
    split
    · split
      · next hused => left; rfl
      · next hused =>
        right
        have hdnil : dists ≠ [] := by
          rw [hdists]
          simpa using hnil
        have hdlen : dists.length = matchIdxs.length := by
          rw [hdists, List.length_map]
        have hargm : listArgmin dists < matchIdxs.length :=
          hdlen ▸ listArgmin_lt_length dists hdnil
        exact ⟨_, _, hbound _ (getD_mem matchIdxs (listArgmin dists) 0 hargm), hused, rfl⟩
    · left; rfl

theorem attachCount_append (l l' : List AssocEvent) (v : Int) (i : Nat) :
    attachCount (l ++ l') v i = attachCount l v i + attachCount l' v i := by
  simp [attachCount]

theorem attachCount_cons_create (l : List AssocEvent) (j : Nat) (w s : Int) (v : Int)
    (i : Nat) : attachCount (AssocEvent.create j w s :: l) v i = attachCount l v i := by
  simp [attachCount, AssocEvent.isAttach]

theorem attachCount_eq_zero_of_visit_ne (l : List AssocEvent) (v : Int) (i : Nat)
    (h : ∀ e ∈ l, e.ccdVisit ≠ v) : attachCount l v i = 0 := by
  rw [attachCount, List.length_eq_zero, List.filter_eq_nil_iff]
  intro e he
  simp [h e he]

theorem attachCount_eq_zero_of_no_attach (l : List AssocEvent) (v : Int) (i : Nat)
    (h : ∀ e ∈ l, e.isAttach = false) : attachCount l v i = 0 := by
  rw [attachCount, List.length_eq_zero, List.filter_eq_nil_iff]
  intro e he
  simp [h e he]

/-- The founding branch of `run` (`len(diaObjectCat) == 0`): every source of
the ccdVisit becomes a `create` event carrying the visit and source key. -/
theorem foldAdd_events (G : GeomOracle) (cfg : SimpleAssociationConfig)
    (tractPatchId : Int) (skymapBits : Nat) (ccdVisit : Int)
    (rows : List SourceRow) (hrows : ∀ r ∈ rows, r.ccdVisitId = ccdVisit) :
    ∀ st : AssocState, ∃ delta : List AssocEvent,
      (rows.foldl (fun s r => addNewDiaObject G cfg tractPatchId skymapBits r ccdVisit s)
        st).events = st.events ++ delta
      ∧ delta.map AssocEvent.key = rows.map keyOf
      ∧ (∀ e ∈ delta, e.ccdVisit = ccdVisit)
      ∧ (∀ e ∈ delta, e.isAttach = false) := by
  induction rows with
  | nil => exact fun st => ⟨[], by simp⟩
  | cons r rest ih =>
    intro st
    obtain ⟨delta, h1, h2, h3, h4⟩ :=
      ih (fun x hx => hrows x (List.mem_cons_of_mem r hx))
        (addNewDiaObject G cfg tractPatchId skymapBits r ccdVisit st)
    refine ⟨AssocEvent.create st.diaObjectCat.length ccdVisit r.diaSourceId :: delta,
      ?_, ?_, ?_, ?_⟩
    · rw [List.foldl_cons, h1, events_addNewDiaObject, List.append_assoc]
      rfl
    · simp only [List.map_cons, h2]
      have : r.ccdVisitId = ccdVisit := hrows r (List.mem_cons_self r rest)
      simp [AssocEvent.key, AssocEvent.ccdVisit, AssocEvent.srcId, keyOf, this]
    · intro e he
      rcases List.mem_cons.mp he with he | he
      · subst he; rfl
      · exact h3 e he
    · intro e he
      rcases List.mem_cons.mp he with he | he
      · subst he; rfl
      · exact h4 e he

/-- The matching branch of `run` for a non-founding ccdVisit: each source
adds exactly one event carrying the visit and source key, and no object index
collects more than one attachment beyond those already claimed in
`usedMatchIndicies`. -/
theorem foldProc_events (G : GeomOracle) (cfg : SimpleAssociationConfig)
    (tractPatchId : Int) (skymapBits : Nat) (ccdVisit : Int)
    (rows : List SourceRow) (hrows : ∀ r ∈ rows, r.ccdVisitId = ccdVisit) :
    ∀ acc : AssocState × List Nat, ∃ delta : List AssocEvent,
      ((rows.foldl (processSource G cfg tractPatchId skymapBits ccdVisit) acc).1).events
        = acc.1.events ++ delta
      ∧ delta.map AssocEvent.key = rows.map keyOf
      ∧ (∀ e ∈ delta, e.ccdVisit = ccdVisit)
      ∧ (∀ i, attachCount delta ccdVisit i ≤ if i ∈ acc.2 then 0 else 1) := by
  induction rows with
  | nil =>
    refine fun acc => ⟨[], by simp, by simp, by simp, fun i => ?_⟩
    simp only [attachCount, List.filter_nil, List.length_nil]
    split <;> omega
  | cons r rest ih =>
    intro acc
    have hrest : ∀ x ∈ rest, x.ccdVisitId = ccdVisit :=
      fun x hx => hrows x (List.mem_cons_of_mem r hx)
    have hr : r.ccdVisitId = ccdVisit := hrows r (List.mem_cons_self r rest)
    rcases processSource_cases G cfg tractPatchId skymapBits ccdVisit acc r with
      hcase | ⟨m, d, hmlt, hm, hcase⟩
    · obtain ⟨delta, h1, h2, h3, h4⟩ :=
        ih hrest (addNewDiaObject G cfg tractPatchId skymapBits r ccdVisit acc.1, acc.2)
      refine ⟨AssocEvent.create acc.1.diaObjectCat.length ccdVisit r.diaSourceId :: delta,
        ?_, ?_, ?_, ?_⟩
      · rw [List.foldl_cons, hcase]
        rw [h1]
        show (addNewDiaObject G cfg tractPatchId skymapBits r ccdVisit acc.1).events ++ delta
          = _
        rw [events_addNewDiaObject, List.append_assoc]
        rfl
      · simp only [List.map_cons, h2]
        simp [AssocEvent.key, AssocEvent.ccdVisit, AssocEvent.srcId, keyOf, hr]
      · intro e he
        rcases List.mem_cons.mp he with he | he
        · subst he; rfl
        · exact h3 e he
      · intro i
        rw [attachCount_cons_create]
        exact h4 i
    · obtain ⟨delta, h1, h2, h3, h4⟩ :=
        ih hrest (updateCatalogs G cfg m r ccdVisit d acc.1, acc.2 ++ [m])
      refine ⟨AssocEvent.attach m ccdVisit r.diaSourceId r.ra r.decl
          (acc.1.diaObjectCat.getD m default).ra
          (acc.1.diaObjectCat.getD m default).decl d :: delta, ?_, ?_, ?_, ?_⟩
      · rw [List.foldl_cons, hcase]
        rw [h1]
        show (updateCatalogs G cfg m r ccdVisit d acc.1).events ++ delta = _
        rw [events_updateCatalogs, List.append_assoc]
        rfl
      · simp only [List.map_cons, h2]
        simp [AssocEvent.key, AssocEvent.ccdVisit, AssocEvent.srcId, keyOf, hr]
      · intro e he
        rcases List.mem_cons.mp he with he | he
        · subst he; rfl
        · exact h3 e he
      · intro i
        have hstep : attachCount (AssocEvent.attach m ccdVisit r.diaSourceId r.ra r.decl
            (acc.1.diaObjectCat.getD m default).ra
            (acc.1.diaObjectCat.getD m default).decl d :: delta) ccdVisit i
            = (if m = i then 1 else 0) + attachCount delta ccdVisit i := by
          by_cases hmi : m = i
          · subst hmi
            simp [attachCount, AssocEvent.isAttach, AssocEvent.objIdx, AssocEvent.ccdVisit]
            omega
          · simp only [attachCount, List.filter_cons, AssocEvent.isAttach,
              AssocEvent.objIdx, AssocEvent.ccdVisit]
            have hb1 : (m == i) = false := by simp [hmi]
            simp [hb1, hmi]
        rw [hstep]
        have h4i := h4 i
        by_cases hmi : m = i
        · subst hmi
          rw [if_pos rfl]
          have hin : m ∈ acc.2 ++ [m] := by simp
          rw [if_pos hin] at h4i
          rw [if_neg hm]
          omega
        · rw [if_neg hmi]
          have hiff : (i ∈ acc.2 ++ [m]) ↔ i ∈ acc.2 := by
            simp [Ne.symm hmi]
          by_cases hiu : i ∈ acc.2
          · rw [if_pos (hiff.mpr hiu)] at h4i
            rw [if_pos hiu]
            omega
          · rw [if_neg (fun hc => hiu (hiff.mp hc))] at h4i
            rw [if_neg hiu]
            omega

/-- One ccdVisit of `run`: it appends one event per source of the visit (in
row order, carrying the visit and source keys), and no object index receives
more than one attachment during the visit. -/
theorem processVisit_events (G : GeomOracle) (cfg : SimpleAssociationConfig)
    (tractPatchId : Int) (skymapBits : Nat) (ccdVisit : Int)
    (rows : List SourceRow) (st : AssocState)
    (hrows : ∀ r ∈ rows, r.ccdVisitId = ccdVisit) :
    ∃ delta : List AssocEvent,
      (processVisit G cfg tractPatchId skymapBits ccdVisit rows st).events
        = st.events ++ delta
      ∧ delta.map AssocEvent.key = rows.map keyOf
      ∧ (∀ e ∈ delta, e.ccdVisit = ccdVisit)
      ∧ ∀ i, attachCount delta ccdVisit i ≤ 1 := by
  rw [processVisit]
  split
  · obtain ⟨delta, h1, h2, h3, h4⟩ :=
      foldAdd_events G cfg tractPatchId skymapBits ccdVisit rows hrows st
    refine ⟨delta, h1, h2, h3, fun i => ?_⟩
    rw [attachCount_eq_zero_of_no_attach delta ccdVisit i h4]
    omega
  · obtain ⟨delta, h1, h2, h3, h4⟩ :=
      foldProc_events G cfg tractPatchId skymapBits ccdVisit rows hrows (st, [])
    refine ⟨delta, h1, h2, h3, fun i => ?_⟩
    have := h4 i
    simpa using this

/-- The outer loop of `run` over a list of ccdVisits: the trace grows by one
event per processed source; the events carry the keys of the processed rows
grouped by visit; and when the visit list has no duplicates, no object index
receives more than one attachment per ccdVisit. -/
theorem foldVisits_events (G : GeomOracle) (cfg : SimpleAssociationConfig)
    (tractPatchId : Int) (skymapBits : Nat) (diaSources : List SourceRow) :
    ∀ visits : List Int, ∀ st : AssocState,
      ∃ delta : List AssocEvent,
        (visits.foldl (fun s v => processVisit G cfg tractPatchId skymapBits v
          (diaSources.filter (fun r => r.ccdVisitId == v)) s) st).events
          = st.events ++ delta
        ∧ delta.map AssocEvent.key = visits.flatMap
            (fun v => ((diaSources.filter (fun r => r.ccdVisitId == v)).map keyOf))
        ∧ (∀ e ∈ delta, e.ccdVisit ∈ visits)
        ∧ (visits.Nodup → ∀ v i, attachCount delta v i ≤ 1) := by
  intro visits
  induction visits with
  | nil =>
    refine fun st => ⟨[], by simp, by simp, by simp, fun _ v i => ?_⟩
    simp [attachCount]
  | cons v0 rest ih =>
    intro st
    have hrows : ∀ r ∈ diaSources.filter (fun r => r.ccdVisitId == v0),
        r.ccdVisitId = v0 := by
      intro r hr
      have := (List.mem_filter.mp hr).2
      exact beq_iff_eq.mp this
    obtain ⟨d0, e1, e2, e3, e4⟩ := processVisit_events G cfg tractPatchId skymapBits v0
      (diaSources.filter (fun r => r.ccdVisitId == v0)) st hrows
    obtain ⟨d1, f1, f2, f3, f4⟩ := ih (processVisit G cfg tractPatchId skymapBits v0
      (diaSources.filter (fun r => r.ccdVisitId == v0)) st)
    refine ⟨d0 ++ d1, ?_, ?_, ?_, ?_⟩
    · rw [List.foldl_cons, f1, e1, List.append_assoc]
    · simp only [List.map_append, e2, f2, List.flatMap_cons]
    · intro e he
      rcases List.mem_append.mp he with he | he
      · exact (e3 e he) ▸ List.mem_cons_self v0 rest
      · exact List.mem_cons_of_mem v0 (f3 e he)
    · intro hnd v i
      have hv0 : v0 ∉ rest := (List.nodup_cons.mp hnd).1
      have hrest : rest.Nodup := (List.nodup_cons.mp hnd).2
      rw [attachCount_append]
      by_cases hv : v = v0
      · subst hv
        have hz : attachCount d1 v i = 0 := by
          refine attachCount_eq_zero_of_visit_ne d1 v i (fun e he hc => ?_)
          exact hv0 (hc ▸ f3 e he)
        have := e4 i
        omega
      · have hz : attachCount d0 v i = 0 := by
          refine attachCount_eq_zero_of_visit_ne d0 v i (fun e he hc => ?_)
          exact hv (hc ▸ (e3 e he))
        have := f4 hrest v i
        omega

/-- The full trace of `run` lists the processed source keys: the ccdVisits in
ascending order, the rows of each visit in their input order. -/
theorem runAssoc_events_key (G : GeomOracle) (cfg : SimpleAssociationConfig)
    (tractPatchId : Int) (skymapBits : Nat) (diaSources : List SourceRow) :
    (runAssoc G cfg tractPatchId skymapBits diaSources).events.map AssocEvent.key
      = (visitList diaSources).flatMap
          (fun v => ((diaSources.filter (fun r => r.ccdVisitId == v)).map keyOf)) := by
  obtain ⟨delta, h1, h2, h3, h4⟩ := foldVisits_events G cfg tractPatchId skymapBits
    diaSources (visitList diaSources) initState
  rw [runAssoc, h1]
  simpa [initState] using h2

theorem runAssoc_attachCount_le_one (G : GeomOracle) (cfg : SimpleAssociationConfig)
    (tractPatchId : Int) (skymapBits : Nat) (diaSources : List SourceRow)
    (v : Int) (i : Nat) :
    attachCount (runAssoc G cfg tractPatchId skymapBits diaSources).events v i ≤ 1 := by
  obtain ⟨delta, h1, h2, h3, h4⟩ := foldVisits_events G cfg tractPatchId skymapBits
    diaSources (visitList diaSources) initState
  rw [runAssoc, h1]
  have hz : initState.events = [] := rfl
  rw [hz, List.nil_append]
  exact h4 (nodup_visitList diaSources) v i

/-! ### Counting the per-visit groups against the input rows -/

theorem flatMap_groups_cons (l : List Int) (r : SourceRow) (rows : List SourceRow) :
    (l.flatMap (fun v => (((r :: rows).filter (fun x => x.ccdVisitId == v)).map keyOf))).length
      = l.count r.ccdVisitId
        + (l.flatMap (fun v => ((rows.filter (fun x => x.ccdVisitId == v)).map keyOf))).length := by
  induction l with
  | nil => simp
  | cons v l' ih =>
    simp only [List.flatMap_cons, List.length_append, ih, List.count_cons]
    by_cases hrv : r.ccdVisitId = v
    · subst hrv
      rw [List.filter_cons_of_pos (by simp)]
      simp only [List.map_cons, List.length_cons, beq_self_eq_true, if_pos]
      omega
    · rw [List.filter_cons_of_neg (by simp [hrv])]
      have hb : (v == r.ccdVisitId) = false := by
        simp only [beq_eq_false_iff_ne, ne_eq]
        exact fun hc => hrv hc.symm
      simp only [hb, Bool.false_eq_true, if_false]
      omega

theorem flatMap_groups_length (rows : List SourceRow) (l : List Int) (hnd : l.Nodup)
    (hcov : ∀ r ∈ rows, r.ccdVisitId ∈ l) :
    (l.flatMap (fun v => ((rows.filter (fun x => x.ccdVisitId == v)).map keyOf))).length
      = rows.length := by
  induction rows with
  | nil =>
    induction l with
    | nil => simp
    | cons v l' ihl => simpa using ihl (List.nodup_cons.mp hnd).2 (by simp)
  | cons r rest ih =>
    rw [flatMap_groups_cons]
    rw [ih (fun x hx => hcov x (List.mem_cons_of_mem r hx))]
    rw [List.count_eq_one_of_mem hnd (hcov r (List.mem_cons_self r rest))]
    simp only [List.length_cons]
    omega

theorem keyOf_fst (r : SourceRow) : (keyOf r).1 = r.ccdVisitId := rfl

theorem count_group (rows : List SourceRow) (v : Int) (k : Int × Int) :
    ((rows.filter (fun x => x.ccdVisitId == v)).map keyOf).count k
      = if v = k.1 then (rows.map keyOf).count k else 0 := by
  induction rows with
  | nil => simp
  | cons r rest ih =>
    by_cases hrv : r.ccdVisitId = v
    · subst hrv
      rw [List.filter_cons_of_pos (by simp)]
      simp only [List.map_cons, List.count_cons, ih]
      by_cases hv1 : r.ccdVisitId = k.1
      · simp [hv1]
      · have hk : (keyOf r == k) = false := by
          simp only [beq_eq_false_iff_ne, ne_eq]
          intro hc
          exact hv1 ((keyOf_fst r) ▸ congrArg Prod.fst hc)
        simp [hv1, hk]
    · rw [List.filter_cons_of_neg (by simp [hrv])]
      rw [ih]
      by_cases hv1 : v = k.1
      · have hk : (keyOf r == k) = false := by
          simp only [beq_eq_false_iff_ne, ne_eq]
          intro hc
          exact hrv (hv1 ▸ (keyOf_fst r) ▸ congrArg Prod.fst hc)
        simp [hv1, List.count_cons, hk]
      · simp [hv1]

theorem count_flatMap_groups_zero (rows : List SourceRow) (l : List Int) (k : Int × Int)
    (h : k.1 ∉ l) :
    (l.flatMap (fun v => ((rows.filter (fun x => x.ccdVisitId == v)).map keyOf))).count k
      = 0 := by
  induction l with
  | nil => simp
  | cons v l' ih =>
    simp only [List.flatMap_cons, List.count_append]
    have hv : v ≠ k.1 := fun hc => h (hc ▸ List.mem_cons_self v l')
    rw [count_group, if_neg hv, ih (fun hc => h (List.mem_cons_of_mem v hc))]

theorem count_flatMap_groups (rows : List SourceRow) (l : List Int) (k : Int × Int)
    (hnd : l.Nodup) (hmem : k.1 ∈ l) :
    (l.flatMap (fun v => ((rows.filter (fun x => x.ccdVisitId == v)).map keyOf))).count k
      = (rows.map keyOf).count k := by
  induction l with
  | nil => simp at hmem
  | cons v l' ih =>
    simp only [List.flatMap_cons, List.count_append]
    by_cases hv : v = k.1
    · rw [count_group, if_pos hv]
      rw [count_flatMap_groups_zero rows l' k (hv ▸ (List.nodup_cons.mp hnd).1)]
      omega
    · rw [count_group, if_neg hv]
      have hmem' : k.1 ∈ l' := by
        rcases List.mem_cons.mp hmem with hc | hc
        · exact absurd hc.symm hv
        · exact hc
      rw [ih (List.nodup_cons.mp hnd).2 hmem']
      omega

/-! ### The mean-and-cell consistency invariant -/

/-- Claim C5's invariant: every live object's (ra, decl) is the spherical
average of its full coordinate history, and its healpix index is the one
computed from that current mean at the configured nside. -/
def MeanInv (G : GeomOracle) (cfg : SimpleAssociationConfig) (st : AssocState) : Prop :=
  ∀ i, i < st.diaObjectCat.length →
    ((st.diaObjectCat.getD i default).ra, (st.diaObjectCat.getD i default).decl)
      = G.average (st.diaObjectCoords.getD i [])
    ∧ st.healPixIndices.getD i 0
      = G.toIndex cfg.nside (st.diaObjectCat.getD i default).ra
          (st.diaObjectCat.getD i default).decl

theorem meanInv_initState (G : GeomOracle) (cfg : SimpleAssociationConfig) :
    MeanInv G cfg initState := by
  intro i hi
  simp [initState] at hi

theorem meanInv_addNewDiaObject (G : GeomOracle) (cfg : SimpleAssociationConfig)
    (havg : ∀ p : Rat × Rat, G.average [p] = p)
    (tractPatchId : Int) (skymapBits : Nat) (diaSrc : SourceRow) (ccdVisit : Int)
    (st : AssocState) (hlen : st.diaObjectCoords.length = st.diaObjectCat.length)
    (hlen2 : st.healPixIndices.length = st.diaObjectCat.length)
    (h : MeanInv G cfg st) :
    MeanInv G cfg (addNewDiaObject G cfg tractPatchId skymapBits diaSrc ccdVisit st) := by
  intro i hi
  simp only [addNewDiaObject, List.length_append, List.length_cons, List.length_nil] at hi
  by_cases hlt : i < st.diaObjectCat.length
  · show (((st.diaObjectCat ++ [_]).getD i default).ra,
        ((st.diaObjectCat ++ [_]).getD i default).decl)
        = G.average ((st.diaObjectCoords ++ [[_]]).getD i [])
      ∧ (st.healPixIndices ++ [_]).getD i 0
        = G.toIndex cfg.nside ((st.diaObjectCat ++ [_]).getD i default).ra
            ((st.diaObjectCat ++ [_]).getD i default).decl
    rw [List.getD_append _ _ _ _ hlt, List.getD_append _ _ _ _ (hlen ▸ hlt),
      List.getD_append _ _ _ _ (hlen2 ▸ hlt)]
    exact h i hlt
  · have hieq : i = st.diaObjectCat.length := by omega
    subst hieq
    show (((st.diaObjectCat ++ [_]).getD st.diaObjectCat.length default).ra,
        ((st.diaObjectCat ++ [_]).getD st.diaObjectCat.length default).decl)
        = G.average ((st.diaObjectCoords ++ [[_]]).getD st.diaObjectCat.length [])
      ∧ (st.healPixIndices ++ [_]).getD st.diaObjectCat.length 0
        = G.toIndex cfg.nside
            ((st.diaObjectCat ++ [_]).getD st.diaObjectCat.length default).ra
            ((st.diaObjectCat ++ [_]).getD st.diaObjectCat.length default).decl
    rw [getD_append_length]
    conv in (st.diaObjectCoords ++ _).getD _ _ => rw [← hlen]
    conv in (st.healPixIndices ++ _).getD _ _ => rw [← hlen2]
    rw [getD_append_length, getD_append_length]
    exact ⟨(havg (diaSrc.ra, diaSrc.decl)).symm, rfl⟩

theorem meanInv_updateCatalogs (G : GeomOracle) (cfg : SimpleAssociationConfig)
    (matchIndex : Nat) (diaSrc : SourceRow) (ccdVisit : Int) (d : Rat)
    (st : AssocState) (hm : matchIndex < st.diaObjectCat.length)
    (hlen : st.diaObjectCoords.length = st.diaObjectCat.length)
    (hlen2 : st.healPixIndices.length = st.diaObjectCat.length)
    (h : MeanInv G cfg st) :
    MeanInv G cfg (updateCatalogs G cfg matchIndex diaSrc ccdVisit d st) := by
  intro i hi
  simp only [updateCatalogs, List.length_set] at hi
  by_cases hieq : matchIndex = i
  · subst hieq
    show (((st.diaObjectCat.set matchIndex (updatedObj G st matchIndex diaSrc)).getD
          matchIndex default).ra,
        ((st.diaObjectCat.set matchIndex (updatedObj G st matchIndex diaSrc)).getD
          matchIndex default).decl)
        = G.average ((st.diaObjectCoords.set matchIndex
            (updatedCoords st matchIndex diaSrc)).getD matchIndex [])
      ∧ (st.healPixIndices.set matchIndex _).getD matchIndex 0
        = G.toIndex cfg.nside
            ((st.diaObjectCat.set matchIndex (updatedObj G st matchIndex diaSrc)).getD
              matchIndex default).ra
            ((st.diaObjectCat.set matchIndex (updatedObj G st matchIndex diaSrc)).getD
              matchIndex default).decl
    rw [getD_set_self _ _ _ _ hm, getD_set_self _ _ _ _ (hlen ▸ hm),
      getD_set_self _ _ _ _ (hlen2 ▸ hm)]
    exact ⟨rfl, rfl⟩
  · show (((st.diaObjectCat.set matchIndex (updatedObj G st matchIndex diaSrc)).getD
          i default).ra,
        ((st.diaObjectCat.set matchIndex (updatedObj G st matchIndex diaSrc)).getD
          i default).decl)
        = G.average ((st.diaObjectCoords.set matchIndex
            (updatedCoords st matchIndex diaSrc)).getD i [])
      ∧ (st.healPixIndices.set matchIndex _).getD i 0
        = G.toIndex cfg.nside
            ((st.diaObjectCat.set matchIndex (updatedObj G st matchIndex diaSrc)).getD
              i default).ra
            ((st.diaObjectCat.set matchIndex (updatedObj G st matchIndex diaSrc)).getD
              i default).decl
    rw [getD_set_ne _ _ _ _ _ hieq, getD_set_ne _ _ _ _ _ hieq,
      getD_set_ne _ _ _ _ _ hieq]
    exact h i hi

theorem meanInv_processSource (G : GeomOracle) (cfg : SimpleAssociationConfig)
    (havg : ∀ p : Rat × Rat, G.average [p] = p)
    (tractPatchId : Int) (skymapBits : Nat) (ccdVisit : Int)
    (acc : AssocState × List Nat) (diaSrc : SourceRow)
    (hinv : Inv G cfg acc.1) (h : MeanInv G cfg acc.1) :
    MeanInv G cfg (processSource G cfg tractPatchId skymapBits ccdVisit acc diaSrc).1 := by
  rcases processSource_cases G cfg tractPatchId skymapBits ccdVisit acc diaSrc with
    hcase | ⟨m, d, hmlt, hm, hcase⟩
  · rw [hcase]
    exact meanInv_addNewDiaObject G cfg havg tractPatchId skymapBits diaSrc ccdVisit acc.1
      hinv.par.1 hinv.par.2.1 h
  · rw [hcase]
    exact meanInv_updateCatalogs G cfg m diaSrc ccdVisit d acc.1
      (hinv.par.2.1 ▸ hmlt) hinv.par.1 hinv.par.2.1 h

theorem meanInv_foldAdd (G : GeomOracle) (cfg : SimpleAssociationConfig)
    (havg : ∀ p : Rat × Rat, G.average [p] = p)
    (tractPatchId : Int) (skymapBits : Nat) (ccdVisit : Int)
    (rows : List SourceRow) (st : AssocState) (hinv : Inv G cfg st)
    (h : MeanInv G cfg st) :
    MeanInv G cfg (rows.foldl
      (fun s r => addNewDiaObject G cfg tractPatchId skymapBits r ccdVisit s) st) := by
  induction rows generalizing st with
  | nil => exact h
  | cons r rest ih =>
    exact ih _ (inv_addNewDiaObject G cfg tractPatchId skymapBits r ccdVisit st hinv)
      (meanInv_addNewDiaObject G cfg havg tractPatchId skymapBits r ccdVisit st
        hinv.par.1 hinv.par.2.1 h)

theorem meanInv_foldProc (G : GeomOracle) (cfg : SimpleAssociationConfig)
    (havg : ∀ p : Rat × Rat, G.average [p] = p)
    (tractPatchId : Int) (skymapBits : Nat) (ccdVisit : Int)
    (rows : List SourceRow) (acc : AssocState × List Nat) (hinv : Inv G cfg acc.1)
    (h : MeanInv G cfg acc.1) :
    MeanInv G cfg
      ((rows.foldl (processSource G cfg tractPatchId skymapBits ccdVisit) acc).1) := by
  induction rows generalizing acc with
  | nil => exact h
  | cons r rest ih =>
    exact ih _ (inv_processSource G cfg tractPatchId skymapBits ccdVisit acc r hinv)
      (meanInv_processSource G cfg havg tractPatchId skymapBits ccdVisit acc r hinv h)

theorem meanInv_processVisit (G : GeomOracle) (cfg : SimpleAssociationConfig)
    (havg : ∀ p : Rat × Rat, G.average [p] = p)
    (tractPatchId : Int) (skymapBits : Nat) (ccdVisit : Int)
    (rows : List SourceRow) (st : AssocState) (hinv : Inv G cfg st)
    (h : MeanInv G cfg st) :
    MeanInv G cfg (processVisit G cfg tractPatchId skymapBits ccdVisit rows st) := by
  rw [processVisit]
  split
  · exact meanInv_foldAdd G cfg havg tractPatchId skymapBits ccdVisit rows st hinv h
  · exact meanInv_foldProc G cfg havg tractPatchId skymapBits ccdVisit rows (st, []) hinv h

theorem meanInv_runAssoc (G : GeomOracle) (cfg : SimpleAssociationConfig)
    (havg : ∀ p : Rat × Rat, G.average [p] = p)
    (tractPatchId : Int) (skymapBits : Nat) (diaSources : List SourceRow) :
    MeanInv G cfg (runAssoc G cfg tractPatchId skymapBits diaSources) := by
  rw [runAssoc]
  have hgen : ∀ (visits : List Int) (st : AssocState), Inv G cfg st → MeanInv G cfg st →
      MeanInv G cfg (visits.foldl
        (fun s v => processVisit G cfg tractPatchId skymapBits v
          (diaSources.filter (fun r => r.ccdVisitId == v)) s) st) := by
    intro visits
    induction visits with
    | nil => exact fun st _ h => h
    | cons v rest ih =>
      intro st hinv h
      exact ih _ (inv_processVisit G cfg tractPatchId skymapBits v _ st hinv)
        (meanInv_processVisit G cfg havg tractPatchId skymapBits v _ st hinv h)
  exact hgen (visitList diaSources) initState (inv_initState G cfg)
    (meanInv_initState G cfg)

/-! ### Remaining helper lemmas for the claim theorems -/

theorem runAssoc_events_length (G : GeomOracle) (cfg : SimpleAssociationConfig)
    (tractPatchId : Int) (skymapBits : Nat) (diaSources : List SourceRow) :
    (runAssoc G cfg tractPatchId skymapBits diaSources).events.length
      = diaSources.length := by
  have hk := congrArg List.length
    (runAssoc_events_key G cfg tractPatchId skymapBits diaSources)
  rw [List.length_map] at hk
  rw [hk]
  exact flatMap_groups_length diaSources (visitList diaSources)
    (nodup_visitList diaSources) (fun r hr => mem_visitList diaSources r hr)

theorem runAssoc_conservation (G : GeomOracle) (cfg : SimpleAssociationConfig)
    (tractPatchId : Int) (skymapBits : Nat) (diaSources : List SourceRow) :
    sumN (runAssoc G cfg tractPatchId skymapBits diaSources).diaObjectCat
      = diaSources.length := by
  rw [(inv_runAssoc G cfg tractPatchId skymapBits diaSources).sum_events]
  exact runAssoc_events_length G cfg tractPatchId skymapBits diaSources

theorem applyAssignment_frame (st : AssocState) (r : SourceRow) :
    (applyAssignment st r).ccdVisitId = r.ccdVisitId
    ∧ (applyAssignment st r).diaSourceId = r.diaSourceId
    ∧ (applyAssignment st r).ra = r.ra
    ∧ (applyAssignment st r).decl = r.decl
    ∧ (applyAssignment st r).extra = r.extra := by
  unfold applyAssignment
  split <;> exact ⟨rfl, rfl, rfl, rfl, rfl⟩

theorem count_key_eq_one_of_nodup_mem (l : List (Int × Int)) (k : Int × Int)
    (hnd : l.Nodup) (hk : k ∈ l) : l.count k = 1 := by
  induction l with
  | nil => simp at hk
  | cons a t ih =>
    rw [List.count_cons]
    rcases List.mem_cons.mp hk with hk1 | hk1
    · subst hk1
      have hnot : k ∉ t := (List.nodup_cons.mp hnd).1
      rw [List.count_eq_zero.mpr hnot]
      simp
    · have hne : (a == k) = false := by
        simp only [beq_eq_false_iff_ne, ne_eq]
        intro hc
        exact (List.nodup_cons.mp hnd).1 (hc ▸ hk1)
      rw [ih (List.nodup_cons.mp hnd).2 hk1, hne]
      simp

theorem assignedIds_length_one (G : GeomOracle) (cfg : SimpleAssociationConfig)
    (tractPatchId : Int) (skymapBits : Nat) (diaSources : List SourceRow)
    (hnodup : (diaSources.map keyOf).Nodup) (r : SourceRow) (hr : r ∈ diaSources) :
    ((runAssoc G cfg tractPatchId skymapBits diaSources).assignments.filter
      (fun a => a.1 == keyOf r)).length = 1 := by
  have hinv := inv_runAssoc G cfg tractPatchId skymapBits diaSources
  have h1 : ((runAssoc G cfg tractPatchId skymapBits diaSources).assignments.filter
        (fun a => a.1 == keyOf r)).length
      = List.countP (fun a => a.1 == keyOf r)
        (runAssoc G cfg tractPatchId skymapBits diaSources).assignments :=
    (List.countP_eq_length_filter _ _).symm
  have h2 : List.countP (fun a => a.1 == keyOf r)
        (runAssoc G cfg tractPatchId skymapBits diaSources).assignments
      = List.count (keyOf r)
        ((runAssoc G cfg tractPatchId skymapBits diaSources).assignments.map Prod.fst) := by
    rw [List.count_eq_countP, List.countP_map]
    rfl
  have h3 := hinv.assign_keys
  have h4 := runAssoc_events_key G cfg tractPatchId skymapBits diaSources
  have h5 : List.count (keyOf r) ((visitList diaSources).flatMap
        (fun v => ((diaSources.filter (fun x => x.ccdVisitId == v)).map keyOf)))
      = (diaSources.map keyOf).count (keyOf r) :=
    count_flatMap_groups diaSources (visitList diaSources) (keyOf r)
      (nodup_visitList diaSources) (mem_visitList diaSources r hr)
  have h6 : (diaSources.map keyOf).count (keyOf r) = 1 :=
    count_key_eq_one_of_nodup_mem (diaSources.map keyOf) (keyOf r) hnodup
      (List.mem_map_of_mem keyOf hr)
  rw [h1, h2, h3, h4]
  rw [h5] at *
  exact h5 ▸ h6

/-! ### Claim theorems -/

/-- C1 (confirmed): Conservation — for every input source table, after `run`
completes, the sum of the `nDiaSources` field over all rows of the returned
diaObjects table equals the number of input source rows: every source is
counted exactly once (new objects start at `nDiaSources == 1`, each
attachment increments it by exactly 1). -/
theorem c1_conservation (G : GeomOracle) (cfg : SimpleAssociationConfig)
    (tractPatchId : Int) (skymapBits : Nat) (diaSources : List SourceRow) :
    sumN (assocOutput G cfg tractPatchId skymapBits diaSources).2
      = diaSources.length := by
  show sumN (runAssoc G cfg tractPatchId skymapBits diaSources).diaObjectCat
    = diaSources.length
  exact runAssoc_conservation G cfg tractPatchId skymapBits diaSources

unseal Rat.add Rat.mul Rat.sub Rat.inv in
/-- C2 counterexample: the claim "within one exposure's processing no object
receives more than one source" is false on the code.  On the concrete input
`[rowA, rowB, rowC]`, object index 1 is founded by `rowB` during ccdVisit 2
and then also receives `rowC` by attachment in the same ccdVisit 2 — two
sources from one exposure — because `usedMatchIndicies` only guards
attachments and a newly created object's index is never added to it. -/
theorem c2_counterexample :
    receivedCount (runAssoc constOracle cfg0 0 10 [rowA, rowB, rowC]).events 2 1 = 2
    ∧ attachCount (runAssoc constOracle cfg0 0 10 [rowA, rowB, rowC]).events 2 1 = 1 := by
  constructor
  · decide
  · decide

/-- C2 (amended): for every exposure (ccdVisit) and every object, at most one
source from that exposure is attached (via `updateCatalogs`) to that object;
an object founded partway through an exposure may additionally receive its
founding source in that same exposure, so it can receive two sources total
from its founding exposure. -/
theorem c2_dedup_amended (G : GeomOracle) (cfg : SimpleAssociationConfig)
    (tractPatchId : Int) (skymapBits : Nat) (diaSources : List SourceRow)
    (v : Int) (i : Nat) :
    attachCount (runAssoc G cfg tractPatchId skymapBits diaSources).events v i ≤ 1 :=
  runAssoc_attachCount_le_one G cfg tractPatchId skymapBits diaSources v i

/-- C3 (confirmed): Distance bound and strict threshold — every attached
(non-founding) source has distance to its object's mean coordinate at the
time of attachment strictly below the converted tolerance
`deg2rad(tolerance/3600)`; and when the minimum candidate distance equals the
tolerance exactly, the source does not match and spawns a new DiaObject. -/
theorem c3_distance_bound (G : GeomOracle) (cfg : SimpleAssociationConfig)
    (tractPatchId : Int) (skymapBits : Nat) (diaSources : List SourceRow) :
    (∀ (i : Nat) (v s : Int) (srcRa srcDecl objRa objDecl d : Rat),
      AssocEvent.attach i v s srcRa srcDecl objRa objDecl d
          ∈ (runAssoc G cfg tractPatchId skymapBits diaSources).events →
      d = G.dist srcRa srcDecl objRa objDecl
        ∧ d < G.deg2rad (cfg.tolerance / 3600))
    ∧ ∀ (ccdVisit : Int) (acc : AssocState × List Nat) (diaSrc : SourceRow)
        (dists : List Rat) (matchIdxs : List Nat),
        findMatches G cfg.nside diaSrc.ra diaSrc.decl (2 * cfg.tolerance)
          acc.1.healPixIndices acc.1.diaObjectCat = some (dists, matchIdxs) →
        listMin dists = G.deg2rad (cfg.tolerance / 3600) →
        processSource G cfg tractPatchId skymapBits ccdVisit acc diaSrc
          = (addNewDiaObject G cfg tractPatchId skymapBits diaSrc ccdVisit acc.1, acc.2) := by
  constructor
  · intro i v s srcRa srcDecl objRa objDecl d he
    exact (inv_runAssoc G cfg tractPatchId skymapBits diaSources).attach_ok _ he
  · intro ccdVisit acc diaSrc dists matchIdxs hfm heq
    simp only [processSource, hfm]
    rw [heq, if_neg (lt_irrefl _)]

unseal Rat.add Rat.mul Rat.sub Rat.inv in
/-- C3 witness: on the concrete run over `[rowA, rowB, rowC]` the attach
event of source 3 onto object 1 is in the trace, and the theorem yields its
recorded distance strictly below the converted tolerance. -/
theorem c3_witness :
    AssocEvent.attach 1 2 3 0 (1 / 100000000) 0 0 (deg2radQ (1 / 100000000))
        ∈ (runAssoc constOracle cfg0 0 10 [rowA, rowB, rowC]).events
    ∧ deg2radQ (1 / 100000000) < constOracle.deg2rad (cfg0.tolerance / 3600) :=
  ⟨by decide,
    ((c3_distance_bound constOracle cfg0 0 10 [rowA, rowB, rowC]).1 1 2 3 0
      (1 / 100000000) 0 0 (deg2radQ (1 / 100000000)) (by decide)).2⟩

/-- C4 (confirmed): Exclusivity — assuming the input-contract uniqueness of
the composite (ccdVisitId, diaSourceId) keys, every input source row receives
exactly one diaObjectId assignment, and the assigned id is the diaObjectId of
some row of the returned diaObjects table. -/
theorem c4_exclusivity (G : GeomOracle) (cfg : SimpleAssociationConfig)
    (tractPatchId : Int) (skymapBits : Nat) (diaSources : List SourceRow)
    (hnodup : (diaSources.map keyOf).Nodup) (r : SourceRow) (hr : r ∈ diaSources) :
    (assignedIds (runAssoc G cfg tractPatchId skymapBits diaSources) (keyOf r)).length = 1
    ∧ (assignedIds (runAssoc G cfg tractPatchId skymapBits diaSources) (keyOf r)).headD 0
        ∈ (assocOutput G cfg tractPatchId skymapBits diaSources).2.map
            DiaObject.diaObjectId := by
  have hlen := assignedIds_length_one G cfg tractPatchId skymapBits diaSources hnodup r hr
  constructor
  · rw [assignedIds, List.length_map]
    exact hlen
  · obtain ⟨a, ha⟩ := List.length_eq_one.mp hlen
    have hmem : a ∈ (runAssoc G cfg tractPatchId skymapBits diaSources).assignments :=
      List.mem_of_mem_filter (ha ▸ List.mem_singleton_self a)
    have hid := (inv_runAssoc G cfg tractPatchId skymapBits diaSources).assign_ids a hmem
    show (assignedIds (runAssoc G cfg tractPatchId skymapBits diaSources)
        (keyOf r)).headD 0
      ∈ (runAssoc G cfg tractPatchId skymapBits diaSources).diaObjectCat.map
          DiaObject.diaObjectId
    rw [assignedIds, ha]
    simpa using hid

unseal Rat.add Rat.mul Rat.sub Rat.inv in
/-- C4 witness: on the concrete input `[rowA, rowB, rowC]` (whose keys are
pairwise distinct) the row `rowA` gets exactly one assignment, and the
assigned id appears in the DiaObject table. -/
theorem c4_witness :
    ([rowA, rowB, rowC].map keyOf).Nodup
    ∧ rowA ∈ [rowA, rowB, rowC]
    ∧ (assignedIds (runAssoc constOracle cfg0 0 10 [rowA, rowB, rowC])
        (keyOf rowA)).length = 1
    ∧ (assignedIds (runAssoc constOracle cfg0 0 10 [rowA, rowB, rowC])
        (keyOf rowA)).headD 0
        ∈ (assocOutput constOracle cfg0 0 10 [rowA, rowB, rowC]).2.map
            DiaObject.diaObjectId :=
  ⟨by decide, by decide,
    (c4_exclusivity constOracle cfg0 0 10 [rowA, rowB, rowC] (by decide) rowA
      (by decide)).1,
    (c4_exclusivity constOracle cfg0 0 10 [rowA, rowB, rowC] (by decide) rowA
      (by decide)).2⟩

/-- C5 (confirmed): Mean-and-cell consistency — assuming the spherical
average of a singleton history is the point itself (true of
`lsst.geom.averageSpherePoint`), the invariant "every object's (ra, decl)
equals the spherical average of all coordinates ever attached to it and its
healpix cell index is computed from that current mean at the configured
nside" holds after every object creation, after every attachment, and on the
final state of `run`. -/
theorem c5_mean_cell (G : GeomOracle) (cfg : SimpleAssociationConfig)
    (havg : ∀ p : Rat × Rat, G.average [p] = p) :
    (∀ (tractPatchId : Int) (skymapBits : Nat) (diaSrc : SourceRow) (ccdVisit : Int)
        (st : AssocState), ParallelStateInv st → MeanInv G cfg st →
      MeanInv G cfg (addNewDiaObject G cfg tractPatchId skymapBits diaSrc ccdVisit st))
    ∧ (∀ (matchIndex : Nat) (diaSrc : SourceRow) (ccdVisit : Int) (d : Rat)
        (st : AssocState), matchIndex < st.diaObjectCat.length →
        ParallelStateInv st → MeanInv G cfg st →
      MeanInv G cfg (updateCatalogs G cfg matchIndex diaSrc ccdVisit d st))
    ∧ ∀ (tractPatchId : Int) (skymapBits : Nat) (diaSources : List SourceRow),
        MeanInv G cfg (runAssoc G cfg tractPatchId skymapBits diaSources) := by
  refine ⟨?_, ?_, ?_⟩
  · intro tractPatchId skymapBits diaSrc ccdVisit st hpar h
    exact meanInv_addNewDiaObject G cfg havg tractPatchId skymapBits diaSrc ccdVisit st
      hpar.1 hpar.2.1 h
  · intro matchIndex diaSrc ccdVisit d st hm hpar h
    exact meanInv_updateCatalogs G cfg matchIndex diaSrc ccdVisit d st hm
      hpar.1 hpar.2.1 h
  · intro tractPatchId skymapBits diaSources
    exact meanInv_runAssoc G cfg havg tractPatchId skymapBits diaSources

/-- C5 witness: with the executable oracle (componentwise mean, exact on
singletons) the invariant holds on the final state of the concrete run. -/
theorem c5_witness :
    MeanInv constOracle cfg0 (runAssoc constOracle cfg0 0 10 [rowA, rowB, rowC]) :=
  (c5_mean_cell constOracle cfg0
    (fun p => by simp [constOracle, avgQ])).2.2 0 10 [rowA, rowB, rowC]

/-- C6 (confirmed): Determinism — two runs on the same input table (same rows
in the same order) with the same tractPatchId, skymapBits and configuration
produce identical engine states and identical output tables (hence identical
object ids, nDiaSources counts, mean coordinates and per-source
assignments). -/
theorem c6_determinism (G : GeomOracle) (cfg : SimpleAssociationConfig)
    (tractPatchId : Int) (skymapBits : Nat) (s1 s2 : List SourceRow) (h : s1 = s2) :
    runAssoc G cfg tractPatchId skymapBits s1 = runAssoc G cfg tractPatchId skymapBits s2
    ∧ assocOutput G cfg tractPatchId skymapBits s1
        = assocOutput G cfg tractPatchId skymapBits s2 := by
  subst h
  exact ⟨rfl, rfl⟩

/-- C6 witness: the determinism theorem applied at a concrete input. -/
theorem c6_witness :
    runAssoc constOracle cfg0 0 10 [rowA, rowB, rowC]
        = runAssoc constOracle cfg0 0 10 [rowA, rowB, rowC]
    ∧ assocOutput constOracle cfg0 0 10 [rowA, rowB, rowC]
        = assocOutput constOracle cfg0 0 10 [rowA, rowB, rowC] :=
  c6_determinism constOracle cfg0 0 10 [rowA, rowB, rowC] [rowA, rowB, rowC] rfl

/-- C7 (confirmed): Tie-break policy — when the minimum-distance candidate is
within tolerance but its object has already been claimed during the current
exposure, the source spawns a new DiaObject; it is never attached to any
other candidate, even one within tolerance and unclaimed. -/
theorem c7_tiebreak (G : GeomOracle) (cfg : SimpleAssociationConfig)
    (tractPatchId : Int) (skymapBits : Nat) (ccdVisit : Int)
    (acc : AssocState × List Nat) (diaSrc : SourceRow)
    (dists : List Rat) (matchIdxs : List Nat)
    (hfm : findMatches G cfg.nside diaSrc.ra diaSrc.decl (2 * cfg.tolerance)
      acc.1.healPixIndices acc.1.diaObjectCat = some (dists, matchIdxs))
    (hmin : listMin dists < G.deg2rad (cfg.tolerance / 3600))
    (hused : matchIdxs.getD (listArgmin dists) 0 ∈ acc.2) :
    processSource G cfg tractPatchId skymapBits ccdVisit acc diaSrc
      = (addNewDiaObject G cfg tractPatchId skymapBits diaSrc ccdVisit acc.1, acc.2) := by
  simp only [processSource, hfm]
  rw [if_pos hmin, if_pos hused]

unseal Rat.add Rat.mul Rat.sub Rat.inv in
/-- C7 witness: a source coincident with an already-claimed object 0, while
object 1 is also within tolerance and unclaimed — the step still creates a
new DiaObject. -/
theorem c7_witness :
    findMatches constOracle cfg0.nside srcW.ra srcW.decl (2 * cfg0.tolerance)
        stW.healPixIndices stW.diaObjectCat = some (distsW, [0, 1])
    ∧ listMin distsW < constOracle.deg2rad (cfg0.tolerance / 3600)
    ∧ [0, 1].getD (listArgmin distsW) 0 ∈ usedW
    ∧ deg2radQ (1 / 1000000) < constOracle.deg2rad (cfg0.tolerance / 3600)
    ∧ (1 : Nat) ∉ usedW
    ∧ processSource constOracle cfg0 0 10 2 (stW, usedW) srcW
        = (addNewDiaObject constOracle cfg0 0 10 srcW 2 stW, usedW) :=
  ⟨by decide, by decide, by decide, by decide, by decide,
    c7_tiebreak constOracle cfg0 0 10 2 (stW, usedW) srcW distsW [0, 1]
      (by decide) (by decide) (by decide)⟩

unseal Rat.add Rat.mul Rat.sub Rat.inv in
/-- C8 counterexample: the claim "a non-positive tolerance or nside raises a
ConfigurationError at entry, before any source is processed" is false on the
code: `SimpleAssociationConfig` declares no validation and `run` has no
raising path, so with tolerance -1 and nside 0 the engine still processes its
input and returns a populated result (here: one source processed into one
DiaObject). -/
theorem c8_counterexample :
    (-1 : Rat) ≤ 0
    ∧ (0 : Int) ≤ 0
    ∧ (assocOutput constOracle { tolerance := -1, nside := 0 } 0 10 [rowA]).2.length = 1
    ∧ (assocOutput constOracle { tolerance := -1, nside := 0 } 0 10 [rowA]).1.length
        = 1 := by
  refine ⟨by norm_num, by decide, by decide, by decide⟩

/-- C8 (amended): the code performs no configuration validation — `run`
accepts a non-positive tolerance or a non-positive nside, processes every
source normally, and returns a well-formed result (conservation still
holds). -/
theorem c8_no_validation (G : GeomOracle) (tractPatchId : Int) (skymapBits : Nat)
    (diaSources : List SourceRow) (cfg : SimpleAssociationConfig)
    (h : cfg.tolerance ≤ 0 ∨ cfg.nside ≤ 0) :
    sumN (assocOutput G cfg tractPatchId skymapBits diaSources).2
      = diaSources.length := by
  show sumN (runAssoc G cfg tractPatchId skymapBits diaSources).diaObjectCat
    = diaSources.length
  exact runAssoc_conservation G cfg tractPatchId skymapBits diaSources

unseal Rat.add Rat.mul Rat.sub Rat.inv in
/-- C8 witness: the amended theorem applied at tolerance -1, nside 0. -/
theorem c8_witness :
    ((-1 : Rat) ≤ 0 ∨ (0 : Int) ≤ 0)
    ∧ sumN (assocOutput constOracle { tolerance := -1, nside := 0 } 0 10 [rowA]).2 = 1 :=
  ⟨Or.inl (by norm_num),
    c8_no_validation constOracle 0 10 [rowA] { tolerance := -1, nside := 0 }
      (Or.inl (by norm_num))⟩

/-- C9 (confirmed): Frame — the returned assocDiaSources table has the same
number of rows as the input, and for every row every column other than
`diaObjectId` (ccdVisitId, diaSourceId, ra, decl and the measurement columns)
is unchanged between input and output. -/
theorem c9_frame (G : GeomOracle) (cfg : SimpleAssociationConfig)
    (tractPatchId : Int) (skymapBits : Nat) (diaSources : List SourceRow)
    (i : Nat) (hi : i < diaSources.length) :
    (assocOutput G cfg tractPatchId skymapBits diaSources).1.length = diaSources.length
    ∧ ((assocOutput G cfg tractPatchId skymapBits diaSources).1.getD i default).ccdVisitId
        = (diaSources.getD i default).ccdVisitId
    ∧ ((assocOutput G cfg tractPatchId skymapBits diaSources).1.getD i default).diaSourceId
        = (diaSources.getD i default).diaSourceId
    ∧ ((assocOutput G cfg tractPatchId skymapBits diaSources).1.getD i default).ra
        = (diaSources.getD i default).ra
    ∧ ((assocOutput G cfg tractPatchId skymapBits diaSources).1.getD i default).decl
        = (diaSources.getD i default).decl
    ∧ ((assocOutput G cfg tractPatchId skymapBits diaSources).1.getD i default).extra
        = (diaSources.getD i default).extra := by
  have hout : (assocOutput G cfg tractPatchId skymapBits diaSources).1
      = diaSources.map
        (applyAssignment (runAssoc G cfg tractPatchId skymapBits diaSources)) := rfl
  have hget : (assocOutput G cfg tractPatchId skymapBits diaSources).1.getD i default
      = applyAssignment (runAssoc G cfg tractPatchId skymapBits diaSources)
        (diaSources.getD i default) := by
    rw [hout]
    exact getD_map _ diaSources i default default hi
  obtain ⟨h1, h2, h3, h4, h5⟩ := applyAssignment_frame
    (runAssoc G cfg tractPatchId skymapBits diaSources) (diaSources.getD i default)
  refine ⟨by rw [hout, List.length_map], ?_, ?_, ?_, ?_, ?_⟩ <;> rw [hget]
  · exact h1
  · exact h2
  · exact h3
  · exact h4
  · exact h5

unseal Rat.add Rat.mul Rat.sub Rat.inv in
/-- C9 witness: the frame theorem applied at row 0 of the concrete input. -/
theorem c9_witness :
    0 < ([rowA, rowB, rowC] : List SourceRow).length
    ∧ ((assocOutput constOracle cfg0 0 10 [rowA, rowB, rowC]).1.length = 3
        ∧ ((assocOutput constOracle cfg0 0 10 [rowA, rowB, rowC]).1.getD 0
            default).ccdVisitId = ([rowA, rowB, rowC].getD 0 default).ccdVisitId
        ∧ ((assocOutput constOracle cfg0 0 10 [rowA, rowB, rowC]).1.getD 0
            default).diaSourceId = ([rowA, rowB, rowC].getD 0 default).diaSourceId
        ∧ ((assocOutput constOracle cfg0 0 10 [rowA, rowB, rowC]).1.getD 0
            default).ra = ([rowA, rowB, rowC].getD 0 default).ra
        ∧ ((assocOutput constOracle cfg0 0 10 [rowA, rowB, rowC]).1.getD 0
            default).decl = ([rowA, rowB, rowC].getD 0 default).decl
        ∧ ((assocOutput constOracle cfg0 0 10 [rowA, rowB, rowC]).1.getD 0
            default).extra = ([rowA, rowB, rowC].getD 0 default).extra) :=
  ⟨by decide, c9_frame constOracle cfg0 0 10 [rowA, rowB, rowC] 0 (by decide)⟩

/-- C10 (confirmed): Parallel-state invariant — after every object creation
and every attachment (and on the final state of `run`), the three
engine-owned lists have equal length and each object's `nDiaSources` equals
the length of its stored coordinate history. -/
theorem c10_parallel_state (G : GeomOracle) (cfg : SimpleAssociationConfig) :
    (∀ (tractPatchId : Int) (skymapBits : Nat) (diaSrc : SourceRow) (ccdVisit : Int)
        (st : AssocState), ParallelStateInv st →
      ParallelStateInv (addNewDiaObject G cfg tractPatchId skymapBits diaSrc ccdVisit st))
    ∧ (∀ (matchIndex : Nat) (diaSrc : SourceRow) (ccdVisit : Int) (d : Rat)
        (st : AssocState), ParallelStateInv st → matchIndex < st.diaObjectCat.length →
      ParallelStateInv (updateCatalogs G cfg matchIndex diaSrc ccdVisit d st))
    ∧ ∀ (tractPatchId : Int) (skymapBits : Nat) (diaSources : List SourceRow),
        ParallelStateInv (runAssoc G cfg tractPatchId skymapBits diaSources) := by
  refine ⟨?_, ?_, ?_⟩
  · intro tractPatchId skymapBits diaSrc ccdVisit st h
    exact par_addNewDiaObject G cfg tractPatchId skymapBits diaSrc ccdVisit st h
  · intro matchIndex diaSrc ccdVisit d st h hm
    exact par_updateCatalogs G cfg matchIndex diaSrc ccdVisit d st h hm
  · intro tractPatchId skymapBits diaSources
    exact (inv_runAssoc G cfg tractPatchId skymapBits diaSources).par

/-- C10 witness: the preservation statement applied at the empty state and a
concrete source. -/
theorem c10_witness :
    ParallelStateInv initState
    ∧ ParallelStateInv (addNewDiaObject constOracle cfg0 0 10 rowA 1 initState) :=
  ⟨⟨rfl, rfl, fun i hi => by simp [initState] at hi⟩,
    (c10_parallel_state constOracle cfg0).1 0 10 rowA 1 initState
      ⟨rfl, rfl, fun i hi => by simp [initState] at hi⟩⟩

end SimpleAssoc
